import Mathlib

/-!
Verification of the CT-Ban `BanSystem` registry
(`src/addons/source-python/plugins/ctban/ctban.py`).

The registry is a Python `dict` subclass mapping a player's unique id to a
pair `(ban_time, name)` where `ban_time = 0` is the permanent sentinel and
otherwise an absolute expiry timestamp, together with two
`collections.deque(maxlen=5)` buffers `leavers` and `freekillers` holding
`(uniqueid, name)` pairs.  We embed the dict as an insertion-ordered
association list with Python's dict semantics, the deques as capped lists,
and `time.time()` as an explicit `now : Nat` argument.
-/

abbrev Identity := String

/-- A stored ban record `(ban_time, name)`; `ban_time = 0` means permanent. -/
abbrev BanRecord := Nat × String

/-- The ban table: insertion-ordered, as a Python dict is. -/
abbrev BanTable := List (Identity × BanRecord)

/-- An entry of the `leavers` / `freekillers` deques: `(uniqueid, name)`. -/
abbrev TrackedEntry := Identity × String

/-- `TRACKED_LEAVERS_NO` from the source. -/
def TRACKED_LEAVERS_NO : Nat := 5

/-- `TRACKED_FREEKILLERS_NO` from the source. -/
def TRACKED_FREEKILLERS_NO : Nat := 5

/-- Python dict lookup `self[k]` (keys are unique in a real dict, the first
match is the entry). -/
def dictLookup (t : BanTable) (k : Identity) : Option BanRecord :=
  match t with
  | [] => none
  | (k1, v) :: rest => if k1 = k then some v else dictLookup rest k

/-- Python dict assignment `self[k] = v`: replaces the value in place when the
key is present, otherwise appends at the end (insertion order). -/
def dictInsert (t : BanTable) (k : Identity) (v : BanRecord) : BanTable :=
  match t with
  | [] => [(k, v)]
  | (k1, v1) :: rest =>
    if k1 = k then (k1, v) :: rest else (k1, v1) :: dictInsert rest k v

/-- Python `self.pop(k, default)`: the removed value (if any) and the
remaining table. -/
def dictPop (t : BanTable) (k : Identity) : Option BanRecord × BanTable :=
  match t with
  | [] => (none, [])
  | (k1, v1) :: rest =>
    if k1 = k then (some v1, rest)
    else
      let r := dictPop rest k
      (r.1, (k1, v1) :: r.2)

/-- Python `self.update(items)`: item-by-item assignment, in order. -/
def dictUpdate (t : BanTable) (items : BanTable) : BanTable :=
  items.foldl (fun acc kv => dictInsert acc kv.1 kv.2) t

/-- Keys of the table are pairwise distinct (always true of a Python dict). -/
def keysNodup (t : BanTable) : Prop :=
  (t.map Prod.fst).Nodup

instance (t : BanTable) : Decidable (keysNodup t) := by
  unfold keysNodup; infer_instance

/-- `collections.deque(maxlen=cap).append(x)`: when the deque is full the
oldest (leftmost) entries are evicted before appending on the right. -/
def dequeAppend (cap : Nat) (l : List TrackedEntry) (x : TrackedEntry) :
    List TrackedEntry :=
  (if cap ≤ l.length then l.drop (l.length + 1 - cap) else l) ++ [x]

/-- The registry state: the ban table (the dict itself) plus the two tracking
deques (`self.leavers`, `self.freekillers`). -/
structure BanSystem where
  table : BanTable
  leavers : List TrackedEntry
  freekillers : List TrackedEntry
deriving DecidableEq, Repr

/-- The fresh state built by `__init__` before any file is read. -/
def emptyBanSystem : BanSystem :=
  { table := [], leavers := [], freekillers := [] }

/-- What `pickle.dump(self, f)` persists: the full object state (dict items
plus the instance attributes `leavers` and `freekillers`). -/
structure PickledState where
  table : BanTable
  leavers : List TrackedEntry
  freekillers : List TrackedEntry
deriving DecidableEq, Repr

/-- `BanSystem.save`: write the pickled full state to the database file. -/
def save (s : BanSystem) : PickledState :=
  { table := s.table, leavers := s.leavers, freekillers := s.freekillers }

/-- What opening and unpickling the database file can yield:
the file is absent (`FileNotFoundError`), present but unparseable, or a
well-formed pickled state. -/
inductive LoadInput where
  | missing
  | corrupt
  | ok (p : PickledState)

/-- Errors surfaced by loading. -/
inductive LoadError where
  | corruptState
deriving DecidableEq, Repr

/-- `BanSystem.__init__`: fresh empty deques, then
`try: self.update(pickle.load(f)) except FileNotFoundError: pass`.
Only `FileNotFoundError` is caught; an unpickling failure propagates to the
caller.  `update` copies dict items only, never the pickled object's
`leavers` / `freekillers` attributes. -/
def banSystemInit (input : LoadInput) : Except LoadError BanSystem :=
  match input with
  | .missing => .ok emptyBanSystem
  | .corrupt => .error .corruptState
  | .ok p => .ok { emptyBanSystem with
                   table := dictUpdate emptyBanSystem.table p.table }

/-- `BanSystem.add_ban(uniqueid, duration, name)`: upsert the record with
expiry `0` (permanent) when `duration == 0`, else `now + duration`; then
`deque.remove((uniqueid, name))` on both deques, with `ValueError` ignored
(first occurrence of the exact pair removed, no-op when absent). -/
def add_ban (s : BanSystem) (now : Nat) (uniqueid : Identity)
    (duration : Nat) (name : String) : BanSystem :=
  { table := dictInsert s.table uniqueid
      ((if duration = 0 then 0 else now + duration), name)
    leavers := s.leavers.erase (uniqueid, name)
    freekillers := s.freekillers.erase (uniqueid, name) }

/-- `BanSystem.is_banned(uniqueid)`: `False` on `KeyError`, else
`ban_time == 0 or time.time() < ban_time`. -/
def is_banned (s : BanSystem) (now : Nat) (uniqueid : Identity) : Bool :=
  match dictLookup s.table uniqueid with
  | none => false
  | some (ban_time, _) => ban_time == 0 || decide (now < ban_time)

/-- State-passing form of `is_banned`, mirroring that the method returns on
every path without assigning to the registry. -/
def is_bannedS (s : BanSystem) (now : Nat) (uniqueid : Identity) :
    Bool × BanSystem :=
  match dictLookup s.table uniqueid with
  | none => (false, s)
  | some (ban_time, _) => (ban_time == 0 || decide (now < ban_time), s)

/-- `BanSystem.remove_ban(uniqueid)`: `self.pop(uniqueid, (None, None))`;
the `(None, None)` default is the `Option.none` result. -/
def remove_ban (s : BanSystem) (uniqueid : Identity) :
    Option BanRecord × BanSystem :=
  ((dictPop s.table uniqueid).1, { s with table := (dictPop s.table uniqueid).2 })

/-- `BanSystem.cleanup()`: delete every record with
`ban_time != 0 and now >= ban_time` (iterating over a snapshot of the
items), then `self.save()` unconditionally. -/
def cleanup (s : BanSystem) (now : Nat) : BanSystem × PickledState :=
  let s1 : BanSystem :=
    { s with table :=
        s.table.filter (fun e => !(decide (e.2.1 ≠ 0) && decide (now ≥ e.2.1))) }
  (s1, save s1)

/-- `BanSystem.track_leaver(uniqueid, name)`: return if `is_banned`; append
`(uniqueid, name)` to the leavers deque only when the exact pair is absent. -/
def track_leaver (s : BanSystem) (now : Nat) (uniqueid : Identity)
    (name : String) : BanSystem :=
  if is_banned s now uniqueid then s
  else if (uniqueid, name) ∈ s.leavers then s
  else { s with leavers := dequeAppend TRACKED_LEAVERS_NO s.leavers (uniqueid, name) }

/-- `BanSystem.track_freekiller(uniqueid, name)`: same on the freekillers
deque. -/
def track_freekiller (s : BanSystem) (now : Nat) (uniqueid : Identity)
    (name : String) : BanSystem :=
  if is_banned s now uniqueid then s
  else if (uniqueid, name) ∈ s.freekillers then s
  else { s with freekillers := dequeAppend TRACKED_FREEKILLERS_NO s.freekillers (uniqueid, name) }

/-- One externally triggered registry operation. -/
inductive Op where
  | addBan (now : Nat) (uniqueid : Identity) (duration : Nat) (name : String)
  | removeBan (uniqueid : Identity)
  | doCleanup (now : Nat)
  | trackLeaver (now : Nat) (uniqueid : Identity) (name : String)
  | trackFreekiller (now : Nat) (uniqueid : Identity) (name : String)

/-- The state transition of one operation. -/
def applyOp (s : BanSystem) : Op → BanSystem
  | .addBan now u d n => add_ban s now u d n
  | .removeBan u => (remove_ban s u).2
  | .doCleanup now => (cleanup s now).1
  | .trackLeaver now u n => track_leaver s now u n
  | .trackFreekiller now u n => track_freekiller s now u n

/-- Running a sequence of operations from a state. -/
def applyOps (s : BanSystem) (ops : List Op) : BanSystem :=
  ops.foldl applyOp s

/-- A concrete two-record state, used as a test input. -/
def twoBanState : BanSystem :=
  { table := [("u", (0, "U")), ("j", (9, "J"))], leavers := [("a", "A")], freekillers := [("b", "B")] }

/-! ### Association-list (dict) lemmas -/

theorem dictLookup_eq_none (t : BanTable) (k : Identity)
    (h : k ∉ t.map Prod.fst) : dictLookup t k = none := by
  induction t with
  | nil => rfl
  | cons hd tl ih =>
    obtain ⟨k1, v1⟩ := hd
    simp only [List.map_cons, List.mem_cons, not_or] at h
    have h1 : ¬ k1 = k := fun hh => h.1 hh.symm
    simp [dictLookup, h1, ih h.2]

theorem dictLookup_dictInsert_self (t : BanTable) (k : Identity) (v : BanRecord) :
    dictLookup (dictInsert t k v) k = some v := by
  induction t with
  | nil => simp [dictInsert, dictLookup]
  | cons hd tl ih =>
    obtain ⟨k1, v1⟩ := hd
    by_cases h : k1 = k
    · simp [dictInsert, dictLookup, h]
    · simp [dictInsert, dictLookup, h, ih]

theorem mem_keys_dictInsert (t : BanTable) (k : Identity) (v : BanRecord)
    (j : Identity) :
    j ∈ (dictInsert t k v).map Prod.fst ↔ j = k ∨ j ∈ t.map Prod.fst := by
  induction t with
  | nil => simp [dictInsert]
  | cons hd tl ih =>
    obtain ⟨k1, v1⟩ := hd
    by_cases h : k1 = k
    · subst h
      simp [dictInsert]
    · simp [dictInsert, h, ih]
      tauto

theorem keysNodup_dictInsert (t : BanTable) (k : Identity) (v : BanRecord)
    (h : keysNodup t) : keysNodup (dictInsert t k v) := by
  induction t with
  | nil => simp [keysNodup, dictInsert]
  | cons hd tl ih =>
    obtain ⟨k1, v1⟩ := hd
    simp only [keysNodup, List.map_cons, List.nodup_cons] at h
    by_cases hk : k1 = k
    · simp only [dictInsert, if_pos hk]
      simpa [keysNodup] using h
    · simp only [dictInsert, if_neg hk]
      simp only [keysNodup, List.map_cons, List.nodup_cons]
      refine ⟨?_, ih h.2⟩
      intro hmem
      rcases (mem_keys_dictInsert tl k v k1).mp hmem with h1 | h1
      · exact hk h1
      · exact h.1 h1

theorem dictPop_fst (t : BanTable) (k : Identity) :
    (dictPop t k).1 = dictLookup t k := by
  induction t with
  | nil => rfl
  | cons hd tl ih =>
    obtain ⟨k1, v1⟩ := hd
    by_cases h : k1 = k
    · simp [dictPop, dictLookup, h]
    · simp [dictPop, dictLookup, h, ih]

theorem dictPop_eq_of_none (t : BanTable) (k : Identity)
    (h : dictLookup t k = none) : dictPop t k = (none, t) := by
  induction t with
  | nil => rfl
  | cons hd tl ih =>
    obtain ⟨k1, v1⟩ := hd
    by_cases hk : k1 = k
    · simp [dictLookup, hk] at h
    · simp only [dictLookup, if_neg hk] at h
      simp [dictPop, hk, ih h]

theorem dictLookup_dictPop_ne (t : BanTable) (k j : Identity) (h : j ≠ k) :
    dictLookup (dictPop t k).2 j = dictLookup t j := by
  induction t with
  | nil => rfl
  | cons hd tl ih =>
    obtain ⟨k1, v1⟩ := hd
    by_cases hk : k1 = k
    · subst hk
      have h1 : ¬ (k1 = j) := fun hh => h hh.symm
      simp [dictPop, dictLookup, h1]
    · by_cases hj : k1 = j
      · simp [dictPop, dictLookup, hk, hj, h]
      · simp [dictPop, dictLookup, hk, hj, ih]

theorem dictLookup_dictPop_self (t : BanTable) (k : Identity)
    (h : keysNodup t) : dictLookup (dictPop t k).2 k = none := by
  induction t with
  | nil => rfl
  | cons hd tl ih =>
    obtain ⟨k1, v1⟩ := hd
    simp only [keysNodup, List.map_cons, List.nodup_cons] at h
    by_cases hk : k1 = k
    · subst hk
      simp only [dictPop, if_pos rfl]
      exact dictLookup_eq_none tl k1 h.1
    · simp [dictPop, hk, dictLookup, ih h.2]

theorem dictInsert_of_not_mem (t : BanTable) (k : Identity) (v : BanRecord)
    (h : k ∉ t.map Prod.fst) : dictInsert t k v = t ++ [(k, v)] := by
  induction t with
  | nil => rfl
  | cons hd tl ih =>
    obtain ⟨k1, v1⟩ := hd
    simp only [List.map_cons, List.mem_cons, not_or] at h
    have h1 : ¬ k1 = k := fun hh => h.1 hh.symm
    simp [dictInsert, h1, ih h.2]

theorem dictUpdate_of_disjoint (l : BanTable) : ∀ t : BanTable,
    (l.map Prod.fst).Nodup → (∀ j ∈ l.map Prod.fst, j ∉ t.map Prod.fst) →
    dictUpdate t l = t ++ l := by
  induction l with
  | nil =>
    intro t _ _
    simp [dictUpdate]
  | cons hd tl ih =>
    intro t hnd hdisj
    obtain ⟨k, v⟩ := hd
    simp only [List.map_cons, List.nodup_cons] at hnd
    have hk : k ∉ t.map Prod.fst := hdisj k (by simp)
    have step : dictUpdate t ((k, v) :: tl) = dictUpdate (t ++ [(k, v)]) tl := by
      show dictUpdate (dictInsert t k v) tl = _
      rw [dictInsert_of_not_mem t k v hk]
    have hdisj2 : ∀ j ∈ tl.map Prod.fst, j ∉ (t ++ [(k, v)]).map Prod.fst := by
      intro j hj
      simp only [List.map_append, List.mem_append, List.map_cons, List.map_nil,
        List.mem_singleton, not_or]
      exact ⟨hdisj j (by simp [hj]), fun hjk => hnd.1 (hjk ▸ hj)⟩
    rw [step, ih (t ++ [(k, v)]) hnd.2 hdisj2]
    simp

/-! ### Deque lemmas -/

theorem dequeAppend_length_le (cap : Nat) (l : List TrackedEntry)
    (x : TrackedEntry) (hcap : 0 < cap) (h : l.length ≤ cap) :
    (dequeAppend cap l x).length ≤ cap := by
  by_cases hc : cap ≤ l.length
  · simp [dequeAppend, hc, List.length_drop]
    omega
  · simp [dequeAppend, hc]
    omega

theorem dequeAppend_nodup (cap : Nat) (l : List TrackedEntry) (x : TrackedEntry)
    (h : l.Nodup) (hx : x ∉ l) : (dequeAppend cap l x).Nodup := by
  have hsub : (if cap ≤ l.length then l.drop (l.length + 1 - cap) else l).Sublist l := by
    split
    · exact List.drop_sublist _ _
    · exact List.Sublist.refl l
  unfold dequeAppend
  rw [List.nodup_append]
  refine ⟨List.Nodup.sublist hsub h, List.nodup_singleton x, ?_⟩
  intro a ha hax
  simp only [List.mem_singleton] at hax
  subst hax
  exact hx (hsub.subset ha)

/-! ### Behaviour of `is_banned` -/

theorem is_banned_true_iff (s : BanSystem) (now : Nat) (u : Identity) :
    is_banned s now u = true ↔
      ∃ bt n, dictLookup s.table u = some (bt, n) ∧ (bt = 0 ∨ now < bt) := by
  unfold is_banned
  cases hlk : dictLookup s.table u with
  | none => simp
  | some v =>
    obtain ⟨bt, n⟩ := v
    simp [Bool.or_eq_true]

theorem is_banned_add_ban_self (s : BanSystem) (now t : Nat) (u : Identity)
    (d : Nat) (name : String) :
    is_banned (add_ban s now u d name) t u
      = ((if d = 0 then 0 else now + d) == 0
          || decide (t < if d = 0 then 0 else now + d)) := by
  simp only [is_banned, add_ban]
  rw [dictLookup_dictInsert_self]

/-! ### Operation invariants -/

theorem applyOp_length_inv (s : BanSystem) (op : Op)
    (h : s.leavers.length ≤ 5 ∧ s.freekillers.length ≤ 5) :
    (applyOp s op).leavers.length ≤ 5 ∧ (applyOp s op).freekillers.length ≤ 5 := by
  cases op with
  | addBan now u d n =>
    exact ⟨le_trans (List.Sublist.length_le (List.erase_sublist _ _)) h.1,
           le_trans (List.Sublist.length_le (List.erase_sublist _ _)) h.2⟩
  | removeBan u => exact h
  | doCleanup now => exact h
  | trackLeaver now u n =>
    show (track_leaver s now u n).leavers.length ≤ 5 ∧
      (track_leaver s now u n).freekillers.length ≤ 5
    unfold track_leaver
    split
    · exact h
    · split
      · exact h
      · exact ⟨dequeAppend_length_le TRACKED_LEAVERS_NO s.leavers (u, n)
          (by decide) h.1, h.2⟩
  | trackFreekiller now u n =>
    show (track_freekiller s now u n).leavers.length ≤ 5 ∧
      (track_freekiller s now u n).freekillers.length ≤ 5
    unfold track_freekiller
    split
    · exact h
    · split
      · exact h
      · exact ⟨h.1, dequeAppend_length_le TRACKED_FREEKILLERS_NO s.freekillers (u, n)
          (by decide) h.2⟩

theorem applyOps_length_inv (ops : List Op) : ∀ s : BanSystem,
    s.leavers.length ≤ 5 → s.freekillers.length ≤ 5 →
    (applyOps s ops).leavers.length ≤ 5 ∧ (applyOps s ops).freekillers.length ≤ 5 := by
  induction ops with
  | nil => intro s h1 h2; exact ⟨h1, h2⟩
  | cons op rest ih =>
    intro s h1 h2
    have h3 := applyOp_length_inv s op ⟨h1, h2⟩
    exact ih (applyOp s op) h3.1 h3.2

theorem applyOp_nodup_inv (s : BanSystem) (op : Op)
    (hl : s.leavers.Nodup) (hf : s.freekillers.Nodup) :
    (applyOp s op).leavers.Nodup ∧ (applyOp s op).freekillers.Nodup := by
  cases op with
  | addBan now u d n => exact ⟨hl.erase _, hf.erase _⟩
  | removeBan u => exact ⟨hl, hf⟩
  | doCleanup now => exact ⟨hl, hf⟩
  | trackLeaver now u n =>
    show (track_leaver s now u n).leavers.Nodup ∧
      (track_leaver s now u n).freekillers.Nodup
    unfold track_leaver
    split
    · exact ⟨hl, hf⟩
    · split
      · exact ⟨hl, hf⟩
      · rename_i hmem
        exact ⟨dequeAppend_nodup _ _ _ hl hmem, hf⟩
  | trackFreekiller now u n =>
    show (track_freekiller s now u n).leavers.Nodup ∧
      (track_freekiller s now u n).freekillers.Nodup
    unfold track_freekiller
    split
    · exact ⟨hl, hf⟩
    · split
      · exact ⟨hl, hf⟩
      · rename_i hmem
        exact ⟨hl, dequeAppend_nodup _ _ _ hf hmem⟩

/-! ### Claims -/

/-- Claim C1, counterexample: saving a state with non-empty tracking
sequences and loading it into a fresh instance yields empty sequences, not
the saved ones (`__init__` copies only dict items via `update`). -/
theorem ctban_C1_counterexample :
    banSystemInit (LoadInput.ok (save
      { table := [("x", (0, "X"))], leavers := [("l", "L")], freekillers := [("f", "F")] }))
      = Except.ok { table := [("x", (0, "X"))], leavers := [], freekillers := [] } ∧
    ({ table := [("x", (0, "X"))], leavers := [], freekillers := [] } : BanSystem)
      ≠ { table := [("x", (0, "X"))], leavers := [("l", "L")], freekillers := [("f", "F")] } :=
  ⟨rfl, by decide⟩

/-- Claim C1 (amended): `save` followed by a fresh load yields the identical
ban table (identities, expiry values, display names, order), but the two
tracking sequences of the new instance are empty, whatever was saved. -/
theorem ctban_C1_roundtrip (s : BanSystem) (h : keysNodup s.table) :
    banSystemInit (LoadInput.ok (save s))
      = Except.ok { table := s.table, leavers := [], freekillers := [] } := by
  have hupd : dictUpdate ([] : BanTable) s.table = s.table := by
    have := dictUpdate_of_disjoint s.table [] h (by intro j hj; simp)
    simpa using this
  have hdef : banSystemInit (LoadInput.ok (save s))
      = Except.ok { table := dictUpdate [] s.table, leavers := [], freekillers := [] } := rfl
  rw [hdef, hupd]

/-- Witness for C1 (amended) at a concrete one-record state. -/
theorem ctban_C1_witness :
    banSystemInit (LoadInput.ok (save
      { table := [("x", (42, "X"))], leavers := [], freekillers := [] }))
      = Except.ok { table := [("x", (42, "X"))], leavers := [], freekillers := [] } :=
  ctban_C1_roundtrip
    { table := [("x", (42, "X"))], leavers := [], freekillers := [] } (by decide)

/-- Claim C2, counterexample: after banning identity `i` under the name
`Bob`, the leaver entry for `i` stored under the name `Alice` is still
present — `add_ban` removes only the exact `(uniqueid, name)` pair. -/
theorem ctban_C2_counterexample :
    ("i", "Alice") ∈ (add_ban
      { table := [], leavers := [("i", "Alice")], freekillers := [] }
      0 "i" 60 "Bob").leavers := by
  decide

/-- Claim C2 (amended): after `add_ban(i, d, name)` the exact pair
`(i, name)` is absent from both tracking sequences (assuming the sequences
hold no duplicate pairs, as the tracking operations guarantee); an entry for
`i` under a different stored display name may survive. -/
theorem ctban_C2_pair_removed (s : BanSystem) (now : Nat) (u : Identity)
    (d : Nat) (n : String) (hl : s.leavers.Nodup) (hf : s.freekillers.Nodup) :
    (u, n) ∉ (add_ban s now u d n).leavers ∧
    (u, n) ∉ (add_ban s now u d n).freekillers := by
  constructor
  · intro hmem
    have hmem2 : (u, n) ∈ s.leavers.erase (u, n) := hmem
    exact ((List.Nodup.mem_erase_iff hl).mp hmem2).1 rfl
  · intro hmem
    have hmem2 : (u, n) ∈ s.freekillers.erase (u, n) := hmem
    exact ((List.Nodup.mem_erase_iff hf).mp hmem2).1 rfl

/-- Witness for C2 (amended) at a concrete state. -/
theorem ctban_C2_witness :
    ("i", "Bob") ∉ (add_ban
      { table := [], leavers := [("i", "Bob"), ("j", "J")], freekillers := [("i", "Bob")] }
      0 "i" 60 "Bob").leavers ∧
    ("i", "Bob") ∉ (add_ban
      { table := [], leavers := [("i", "Bob"), ("j", "J")], freekillers := [("i", "Bob")] }
      0 "i" 60 "Bob").freekillers :=
  ctban_C2_pair_removed
    { table := [], leavers := [("i", "Bob"), ("j", "J")], freekillers := [("i", "Bob")] }
    0 "i" 60 "Bob" (by decide) (by decide)

/-- Claim C3, counterexample: tracking identity `p` twice under two display
names appends twice — the sequence then holds two entries with the same
identity, and the second call did change the sequence. -/
theorem ctban_C3_counterexample :
    (track_leaver (track_leaver emptyBanSystem 0 "p" "Alice") 0 "p" "Bob").leavers
      = [("p", "Alice"), ("p", "Bob")] ∧
    track_leaver (track_leaver emptyBanSystem 0 "p" "Alice") 0 "p" "Bob"
      ≠ track_leaver emptyBanSystem 0 "p" "Alice" := by
  constructor
  · decide
  · decide

/-- Claim C3 (amended): the deduplication unit is the whole
`(identity, displayName)` pair: every operation preserves the absence of
duplicate pairs in both sequences, and tracking an exact pair that is
already present leaves the registry unchanged. -/
theorem ctban_C3_pair_invariant :
    (∀ (s : BanSystem) (op : Op), s.leavers.Nodup → s.freekillers.Nodup →
      (applyOp s op).leavers.Nodup ∧ (applyOp s op).freekillers.Nodup) ∧
    (∀ (s : BanSystem) (now : Nat) (u : Identity) (n : String),
      (u, n) ∈ s.leavers → track_leaver s now u n = s) ∧
    (∀ (s : BanSystem) (now : Nat) (u : Identity) (n : String),
      (u, n) ∈ s.freekillers → track_freekiller s now u n = s) := by
  refine ⟨fun s op hl hf => applyOp_nodup_inv s op hl hf, ?_, ?_⟩
  · intro s now u n hmem
    unfold track_leaver
    split
    · rfl
    · rfl
  · intro s now u n hmem
    unfold track_freekiller
    split
    · rfl
    · rfl

/-- Witness for C3 (amended) at concrete states. -/
theorem ctban_C3_witness :
    ((applyOp { table := [], leavers := [("a", "A")], freekillers := [] }
        (Op.trackLeaver 0 "b" "B")).leavers.Nodup ∧
      (applyOp { table := [], leavers := [("a", "A")], freekillers := [] }
        (Op.trackLeaver 0 "b" "B")).freekillers.Nodup) ∧
    track_leaver { table := [], leavers := [("a", "A")], freekillers := [] } 0 "a" "A"
      = { table := [], leavers := [("a", "A")], freekillers := [] } ∧
    track_freekiller { table := [], leavers := [], freekillers := [("c", "C")] } 0 "c" "C"
      = { table := [], leavers := [], freekillers := [("c", "C")] } :=
  ⟨ctban_C3_pair_invariant.1
      { table := [], leavers := [("a", "A")], freekillers := [] }
      (Op.trackLeaver 0 "b" "B") (by decide) (by decide),
   ctban_C3_pair_invariant.2.1
      { table := [], leavers := [("a", "A")], freekillers := [] } 0 "a" "A" (by decide),
   ctban_C3_pair_invariant.2.2
      { table := [], leavers := [], freekillers := [("c", "C")] } 0 "c" "C" (by decide)⟩

/-- Claim C4: `is_banned` is true iff a record exists whose expiry is the
permanent sentinel `0` or strictly greater than the current time; it never
mutates the state; after a ban of duration `d > 0` placed at `now` the
identity is banned at every time before `now + d` and unbanned from
`now + d` on, with no cleanup; a duration-0 ban is banned at every time. -/
theorem ctban_C4_is_banned (s : BanSystem) (now : Nat) (u : Identity) :
    (is_banned s now u = true ↔
      ∃ bt n, dictLookup s.table u = some (bt, n) ∧ (bt = 0 ∨ now < bt)) ∧
    (is_bannedS s now u).2 = s ∧
    (∀ (d : Nat) (name : String) (t : Nat), 0 < d →
      (t < now + d → is_banned (add_ban s now u d name) t u = true) ∧
      (now + d ≤ t → is_banned (add_ban s now u d name) t u = false)) ∧
    (∀ (name : String) (t : Nat), is_banned (add_ban s now u 0 name) t u = true) := by
  refine ⟨is_banned_true_iff s now u, ?_, ?_, ?_⟩
  · unfold is_bannedS
    cases dictLookup s.table u with
    | none => rfl
    | some v => rfl
  · intro d name t hd
    have heq := is_banned_add_ban_self s now t u d name
    rw [if_neg (by omega : ¬ d = 0)] at heq
    constructor
    · intro ht
      rw [heq]
      simp only [Bool.or_eq_true, beq_iff_eq, decide_eq_true_eq]
      exact Or.inr ht
    · intro ht
      rw [heq]
      simp only [Bool.or_eq_false_iff, beq_eq_false_iff_ne, ne_eq,
        decide_eq_false_iff_not, not_lt]
      omega
  · intro name t
    have heq := is_banned_add_ban_self s now t u 0 name
    rw [if_pos rfl] at heq
    rw [heq]
    simp

/-- Witness for C4 at a concrete ban: banned at time 50, expired at 70,
permanent still banned at 1000000. -/
theorem ctban_C4_witness :
    is_banned (add_ban emptyBanSystem 10 "u" 60 "N") 50 "u" = true ∧
    is_banned (add_ban emptyBanSystem 10 "u" 60 "N") 70 "u" = false ∧
    is_banned (add_ban emptyBanSystem 10 "u" 0 "N") 1000000 "u" = true :=
  ⟨((ctban_C4_is_banned emptyBanSystem 10 "u").2.2.1 60 "N" 50 (by decide)).1 (by decide),
   ((ctban_C4_is_banned emptyBanSystem 10 "u").2.2.1 60 "N" 70 (by decide)).2 (by decide),
   (ctban_C4_is_banned emptyBanSystem 10 "u").2.2.2 "N" 1000000⟩

/-- Claim C5: `cleanup` keeps exactly the records that are permanent
(`expiry 0`) or not yet expired (`now < expiry`) — so it deletes exactly the
records with a concrete expiry `≤ now` and never touches permanent ones —
leaves both tracking sequences alone, and always saves the resulting state,
even when nothing was removed. -/
theorem ctban_C5_cleanup (s : BanSystem) (now : Nat) :
    (∀ e : Identity × BanRecord,
      e ∈ (cleanup s now).1.table ↔ e ∈ s.table ∧ (e.2.1 = 0 ∨ now < e.2.1)) ∧
    (cleanup s now).1.leavers = s.leavers ∧
    (cleanup s now).1.freekillers = s.freekillers ∧
    (cleanup s now).2 = save (cleanup s now).1 := by
  refine ⟨?_, rfl, rfl, rfl⟩
  intro e
  have hb : ((!(decide (e.2.1 ≠ 0) && decide (now ≥ e.2.1))) = true)
      ↔ (e.2.1 = 0 ∨ now < e.2.1) := by
    by_cases h0 : e.2.1 = 0 <;> by_cases h1 : now ≥ e.2.1
    all_goals simp [h0, h1]
    all_goals omega
  show e ∈ s.table.filter _ ↔ _
  rw [List.mem_filter, hb]

/-- Claim C6: both tracking sequences are capacity-5 FIFO buffers: tracking
7 distinct identities from the empty registry leaves exactly the last 5, in
insertion order, and no sequence of operations ever pushes either sequence
past length 5. -/
theorem ctban_C6_bounded_fifo :
    ((applyOps emptyBanSystem
        [Op.trackLeaver 0 "p1" "n1", Op.trackLeaver 0 "p2" "n2",
         Op.trackLeaver 0 "p3" "n3", Op.trackLeaver 0 "p4" "n4",
         Op.trackLeaver 0 "p5" "n5", Op.trackLeaver 0 "p6" "n6",
         Op.trackLeaver 0 "p7" "n7"]).leavers
      = [("p3", "n3"), ("p4", "n4"), ("p5", "n5"), ("p6", "n6"), ("p7", "n7")] ∧
     (applyOps emptyBanSystem
        [Op.trackFreekiller 0 "p1" "n1", Op.trackFreekiller 0 "p2" "n2",
         Op.trackFreekiller 0 "p3" "n3", Op.trackFreekiller 0 "p4" "n4",
         Op.trackFreekiller 0 "p5" "n5", Op.trackFreekiller 0 "p6" "n6",
         Op.trackFreekiller 0 "p7" "n7"]).freekillers
      = [("p3", "n3"), ("p4", "n4"), ("p5", "n5"), ("p6", "n6"), ("p7", "n7")]) ∧
    ∀ ops : List Op,
      (applyOps emptyBanSystem ops).leavers.length ≤ 5 ∧
      (applyOps emptyBanSystem ops).freekillers.length ≤ 5 := by
  refine ⟨⟨by decide, by decide⟩, ?_⟩
  intro ops
  exact applyOps_length_inv ops emptyBanSystem (by decide) (by decide)

/-- Claim C7: when the identity is currently banned, `track_leaver` and
`track_freekiller` leave the whole registry state unchanged. -/
theorem ctban_C7_banned_noop (s : BanSystem) (now : Nat) (u : Identity)
    (n m : String) (h : is_banned s now u = true) :
    track_leaver s now u n = s ∧ track_freekiller s now u m = s := by
  refine ⟨?_, ?_⟩
  · unfold track_leaver
    rw [if_pos h]
  · unfold track_freekiller
    rw [if_pos h]

/-- Witness for C7 at a concrete permanently banned identity. -/
theorem ctban_C7_witness :
    track_leaver { table := [("u", (0, "X"))], leavers := [], freekillers := [] } 5 "u" "A"
      = { table := [("u", (0, "X"))], leavers := [], freekillers := [] } ∧
    track_freekiller { table := [("u", (0, "X"))], leavers := [], freekillers := [] } 5 "u" "B"
      = { table := [("u", (0, "X"))], leavers := [], freekillers := [] } :=
  ctban_C7_banned_noop
    { table := [("u", (0, "X"))], leavers := [], freekillers := [] } 5 "u" "A" "B" (by decide)

/-- Claim C8: `remove_ban` returns exactly the looked-up record (`none`
as the explicit not-found result, never an error), removes it, is the
identity on the state when no record exists, and after a single ban a first
removal yields the record while a second yields not-found. -/
theorem ctban_C8_remove_ban (s : BanSystem) (u : Identity) (h : keysNodup s.table) :
    ((remove_ban s u).1 = dictLookup s.table u) ∧
    (dictLookup (remove_ban s u).2.table u = none) ∧
    (dictLookup s.table u = none → (remove_ban s u).2 = s) ∧
    ((remove_ban (remove_ban s u).2 u).1 = none) ∧
    (∀ (now d : Nat) (n : String),
      (remove_ban (add_ban s now u d n) u).1
        = some ((if d = 0 then 0 else now + d), n)) ∧
    (∀ (now d : Nat) (n : String),
      (remove_ban (remove_ban (add_ban s now u d n) u).2 u).1 = none) := by
  have h2 : dictLookup (remove_ban s u).2.table u = none :=
    dictLookup_dictPop_self s.table u h
  refine ⟨dictPop_fst s.table u, h2, ?_, ?_, ?_, ?_⟩
  · intro hnone
    show { s with table := (dictPop s.table u).2 } = s
    rw [dictPop_eq_of_none s.table u hnone]
  · show (dictPop (remove_ban s u).2.table u).1 = none
    rw [dictPop_fst, h2]
  · intro now d n
    show (dictPop (add_ban s now u d n).table u).1 = _
    rw [dictPop_fst]
    exact dictLookup_dictInsert_self s.table u _
  · intro now d n
    have hk : keysNodup (add_ban s now u d n).table :=
      keysNodup_dictInsert s.table u _ h
    show (dictPop (remove_ban (add_ban s now u d n) u).2.table u).1 = none
    rw [dictPop_fst]
    exact dictLookup_dictPop_self _ u hk

/-- Witness for C8: ban once, unban twice — found then not-found — and
removal on an empty registry is the identity. -/
theorem ctban_C8_witness :
    (remove_ban (add_ban emptyBanSystem 10 "u" 60 "N") "u").1 = some (70, "N") ∧
    (remove_ban (remove_ban (add_ban emptyBanSystem 10 "u" 60 "N") "u").2 "u").1 = none ∧
    (remove_ban emptyBanSystem "u").2 = emptyBanSystem :=
  ⟨(ctban_C8_remove_ban emptyBanSystem "u" (by decide)).2.2.2.2.1 10 60 "N",
   (ctban_C8_remove_ban emptyBanSystem "u" (by decide)).2.2.2.2.2 10 60 "N",
   (ctban_C8_remove_ban emptyBanSystem "u" (by decide)).2.2.1 rfl⟩

/-- Claim C9: loading with no database file yields the empty state and is
not an error; loading a present but unparseable file surfaces the error to
the caller (only `FileNotFoundError` is caught). -/
theorem ctban_C9_load :
    banSystemInit LoadInput.missing = Except.ok emptyBanSystem ∧
    banSystemInit LoadInput.corrupt = Except.error LoadError.corruptState :=
  ⟨rfl, rfl⟩

/-- Claim C10: `remove_ban` leaves both tracking sequences unchanged and the
record of every other identity unchanged. -/
theorem ctban_C10_frame (s : BanSystem) (u j : Identity) (h : j ≠ u) :
    (remove_ban s u).2.leavers = s.leavers ∧
    (remove_ban s u).2.freekillers = s.freekillers ∧
    dictLookup (remove_ban s u).2.table j = dictLookup s.table j :=
  ⟨rfl, rfl, dictLookup_dictPop_ne s.table u j h⟩

/-- Witness for C10 at a concrete two-record state. -/
theorem ctban_C10_witness :
    (remove_ban twoBanState "u").2.leavers = [("a", "A")] ∧
    (remove_ban twoBanState "u").2.freekillers = [("b", "B")] ∧
    dictLookup (remove_ban twoBanState "u").2.table "j" = some (9, "J") :=
  ctban_C10_frame twoBanState "u" "j" (by decide)
